import Mathlib

/-!
Shallow embedding of the Avalanche DAG consensus core of this repository.

The repository source at hand contains the consensus test suite
(VotingTest, TransitiveVotingTest, QuiesceTest, ...); the implementation of
the consensus engine itself (the vertex DAG, the Snowstorm transaction layer
and the Snowball instances) is not among the source files, so the engine is
modelled from the specification, with the behaviour pinned down by the test
suite wherever the two disagree.  Vertex, transaction, input and responder
identifiers are opaque values, modelled as natural numbers.  The effectful
accept and reject callbacks of vertices and transactions are modelled by
error flags carried on the records plus an event log in the state.
-/

namespace Avalanche

/-- Status of a vertex or transaction: Processing, Accepted or Rejected. -/
inductive Status where
  | processing
  | accepted
  | rejected
deriving DecidableEq, Repr

/-- Modelled from the spec: a transaction exposes an id, the set of input
identifiers it consumes, a verify check, and effectful accept and reject
callbacks.  The callbacks are modelled by optional error codes: `some e`
means the callback fails with error `e`. -/
structure Tx where
  id : Nat
  inputs : List Nat
  verifyOk : Bool := true
  acceptErr : Option Nat := none
  rejectErr : Option Nat := none
deriving DecidableEq, Repr

/-- Modelled from the spec: a vertex exposes an id, parent vertex ids, the
transactions it batches, and effectful accept and reject callbacks
(modelled as optional error codes). -/
structure Vtx where
  id : Nat
  parents : List Nat
  txs : List Tx
  acceptErr : Option Nat := none
  rejectErr : Option Nat := none
deriving DecidableEq, Repr

/-- Consensus parameters: sample size k, quorum threshold alpha, and the two
confidence thresholds. -/
structure Params where
  k : Nat
  alpha : Nat
  betaVirtuous : Nat
  betaRogue : Nat
deriving DecidableEq, Repr

/-- Modelled from the spec: a conflict set of the Snowstorm layer, holding
the currently registered member transactions (in insertion order, so the
head is the first added), the union of their inputs, and the state of its
Snowball instance: current preference, the preference of the current
confidence run, the confidence counter, the per-member successful poll
counts, and the one-way rogue flag. -/
structure CSet where
  members : List Nat
  inputs : List Nat
  pref : Nat
  lastPref : Nat
  conf : Nat
  polls : List (Nat × Nat)
  rogue : Bool
deriving DecidableEq, Repr

/-- An external side effect issued by the consensus core: an accept or
reject callback on a transaction or a vertex. -/
inductive Event where
  | txAccept (id : Nat)
  | txReject (id : Nat)
  | vtxAccept (id : Nat)
  | vtxReject (id : Nat)
deriving DecidableEq, Repr

/-- Modelled from the spec: the state of the consensus instance.  `vtxs`
and `txs` record every vertex and transaction ever registered, in
registration order; the status maps carry their current statuses; `chits`
counts successful polls per vertex; `csets` are the live conflict sets of
the Snowstorm layer; `events` is the log of accept and reject side effects
issued so far, in order. -/
structure St where
  params : Params
  vtxs : List Vtx
  vtxStatus : List (Nat × Status)
  chits : List (Nat × Nat)
  txs : List Tx
  txStatus : List (Nat × Status)
  csets : List CSet
  events : List Event
deriving DecidableEq, Repr

/-- Association list lookup. -/
def alookup (l : List (Nat × Status)) (x : Nat) : Option Status :=
  (l.find? (fun p => p.1 == x)).map Prod.snd

/-- Association list lookup with default 0, for counters. -/
def nlookup (l : List (Nat × Nat)) (x : Nat) : Nat :=
  ((l.find? (fun p => p.1 == x)).map Prod.snd).getD 0

/-- Set a key in an association list of counters, inserting if absent. -/
def nstore (l : List (Nat × Nat)) (x v : Nat) : List (Nat × Nat) :=
  if l.any (fun p => p.1 == x) then
    l.map (fun p => if p.1 == x then (x, v) else p)
  else
    l ++ [(x, v)]

/-- Set a key in a status association list, inserting if absent. -/
def sstore (l : List (Nat × Status)) (x : Nat) (v : Status) : List (Nat × Status) :=
  if l.any (fun p => p.1 == x) then
    l.map (fun p => if p.1 == x then (x, v) else p)
  else
    l ++ [(x, v)]

/-- Status of a vertex id, none when the id has never been registered. -/
def vtxStatusOf (s : St) (x : Nat) : Option Status :=
  alookup s.vtxStatus x

/-- Status of a transaction id, none when the id has never been registered. -/
def txStatusOf (s : St) (x : Nat) : Option Status :=
  alookup s.txStatus x

/-- Whether a vertex id is currently in the processing DAG. -/
def isProcessingVtx (s : St) (x : Nat) : Bool :=
  vtxStatusOf s x == some Status.processing

/-- Whether a transaction id is currently processing. -/
def isProcessingTx (s : St) (x : Nat) : Bool :=
  txStatusOf s x == some Status.processing

/-- The vertex record registered under an id, if any. -/
def vtxOf (s : St) (x : Nat) : Option Vtx :=
  s.vtxs.find? (fun v => v.id == x)

/-- Parent ids of a registered vertex (empty for unknown ids). -/
def parentsOf (s : St) (x : Nat) : List Nat :=
  ((vtxOf s x).map Vtx.parents).getD []

/-- Transaction ids carried by a registered vertex (empty for unknown ids). -/
def txIdsOf (s : St) (x : Nat) : List Nat :=
  ((vtxOf s x).map (fun v => v.txs.map Tx.id)).getD []

/-- Ids of the vertices currently in the processing DAG, in registration
order. -/
def processingVtxIds (s : St) : List Nat :=
  (s.vtxs.filter (fun v => isProcessingVtx s v.id)).map Vtx.id

/-- Modelled from the spec: registering a transaction with Snowstorm merges
every conflict set sharing an input with it into one, appends the
transaction as the newest member, and flags the merged set rogue as soon as
it holds more than one member.  A fresh singleton set starts virtuous with
the transaction as its preference. -/
def csAdd (csets : List CSet) (t : Tx) : List CSet :=
  let hit := csets.filter (fun cs => cs.inputs.any (fun i => t.inputs.contains i))
  let rest := csets.filter (fun cs => !cs.inputs.any (fun i => t.inputs.contains i))
  match hit with
  | [] =>
      rest ++ [{ members := [t.id], inputs := t.inputs, pref := t.id,
                 lastPref := t.id, conf := 0, polls := [(t.id, 0)], rogue := false }]
  | c0 :: cr =>
      let merged := cr.foldl
        (fun a b => { a with
            members := a.members ++ b.members,
            inputs := a.inputs ++ b.inputs,
            polls := a.polls ++ b.polls }) c0
      rest ++ [{ merged with
          members := merged.members ++ [t.id],
          inputs := merged.inputs ++ t.inputs,
          polls := merged.polls ++ [(t.id, 0)],
          rogue := true }]

/-- Modelled from the spec: the Snowball update of a conflict set on a
successful poll for member `c`: bump the successful poll count of `c`,
switch the preference when `c` overtakes it, and either extend the
confidence run or restart it at 1 when the successful choice changed. -/
def sbUpdate (cs : CSet) (c : Nat) : CSet :=
  let pc := nlookup cs.polls c + 1
  let polls2 := nstore cs.polls c pc
  let pref2 := if nlookup polls2 cs.pref < pc then c else cs.pref
  if c == cs.lastPref then
    { cs with polls := polls2, pref := pref2, conf := cs.conf + 1 }
  else
    { cs with polls := polls2, pref := pref2, lastPref := c, conf := 1 }

/-- The confidence threshold applicable to a conflict set: betaRogue once
the set has ever been rogue, betaVirtuous otherwise. -/
def csBeta (ps : Params) (cs : CSet) : Nat :=
  if cs.rogue then ps.betaRogue else ps.betaVirtuous

/-- Modelled from the spec: initialization seeds the instance with the
genesis frontier: every genesis vertex and every transaction it carries is
Accepted, and no conflict set is live. -/
def Initialize (ps : Params) (genesis : List Vtx) : St :=
  { params := ps,
    vtxs := genesis,
    vtxStatus := genesis.map (fun g => (g.id, Status.accepted)),
    chits := [],
    txs := genesis.foldl (fun a g => a ++ g.txs) [],
    txStatus := (genesis.foldl (fun a g => a ++ g.txs) []).map
      (fun t => (t.id, Status.accepted)),
    csets := [],
    events := [] }

/-- A pending terminal decision: accepting or rejecting a transaction or a
vertex.  The full record is kept so that the commit phase can consult the
error flags of the external callbacks. -/
inductive Decision where
  | txAcc (t : Tx)
  | txRej (t : Tx)
  | vtxAcc (v : Vtx)
  | vtxRej (v : Vtx)
deriving DecidableEq, Repr

/-- The error reported by the external callback a decision invokes, if any. -/
def decisionErr : Decision → Option Nat
  | Decision.txAcc t => t.acceptErr
  | Decision.txRej t => t.rejectErr
  | Decision.vtxAcc v => v.acceptErr
  | Decision.vtxRej v => v.rejectErr

/-- The event logged when a decision is committed. -/
def eventOf : Decision → Event
  | Decision.txAcc t => Event.txAccept t.id
  | Decision.txRej t => Event.txReject t.id
  | Decision.vtxAcc v => Event.vtxAccept v.id
  | Decision.vtxRej v => Event.vtxReject v.id

/-- Apply the status change of a decision and log the corresponding accept
or reject side effect. -/
def applyDecision (s : St) (d : Decision) : St :=
  match d with
  | Decision.txAcc t =>
      { s with txStatus := sstore s.txStatus t.id Status.accepted,
               events := s.events ++ [eventOf d] }
  | Decision.txRej t =>
      { s with txStatus := sstore s.txStatus t.id Status.rejected,
               events := s.events ++ [eventOf d] }
  | Decision.vtxAcc v =>
      { s with vtxStatus := sstore s.vtxStatus v.id Status.accepted,
               events := s.events ++ [eventOf d] }
  | Decision.vtxRej v =>
      { s with vtxStatus := sstore s.vtxStatus v.id Status.rejected,
               events := s.events ++ [eventOf d] }

/-- Modelled from the spec: decisions are committed in order; each commit
invokes the external accept or reject callback, and a failing callback
aborts the run immediately with that error, so no further accept or reject
is issued in the same call. -/
def execDecisions : List Decision → St → Option Nat × St
  | [], s => (none, s)
  | d :: ds, s =>
      match decisionErr d with
      | some e => (some e, applyDecision s d)
      | none => execDecisions ds (applyDecision s d)

/-- Result of a public operation: newly accepted vertex ids, newly rejected
vertex ids, an optional surfaced error, and the post state. -/
structure ARes where
  acc : List Nat
  rej : List Nat
  err : Option Nat
  st : St
deriving DecidableEq, Repr

/-- Error code surfaced when a parent id cannot be resolved. -/
def getterErr : Nat := 1000

/-- Register a transaction as a new processing member of the Snowstorm
layer, merging conflict sets as needed. -/
def registerTx (s : St) (t : Tx) : St :=
  { s with txs := s.txs ++ [t],
           txStatus := s.txStatus ++ [(t.id, Status.processing)],
           csets := csAdd s.csets t }

/-- Register a transaction that is decided at admission time and therefore
never joins a conflict set. -/
def registerDecidedTx (s : St) (t : Tx) : St :=
  { s with txs := s.txs ++ [t],
           txStatus := s.txStatus ++ [(t.id, Status.processing)] }

/-- Register a vertex in the processing DAG with zero chits. -/
def registerVtx (s : St) (v : Vtx) : St :=
  { s with vtxs := s.vtxs ++ [v],
           vtxStatus := s.vtxStatus ++ [(v.id, Status.processing)],
           chits := s.chits ++ [(v.id, 0)] }

/-- The transactions of a vertex not yet known to the instance, in order. -/
def addNews (s : St) (v : Vtx) : List Tx :=
  v.txs.filter (fun t => (txStatusOf s t.id).isNone)

/-- The state a rejected-at-admission vertex is committed onto: the vertex
and its unknown transactions registered. -/
def addRejBase (s : St) (v : Vtx) : St :=
  { registerVtx s v with
      txs := s.txs ++ addNews s v,
      txStatus := s.txStatus ++ (addNews s v).map (fun t => (t.id, Status.processing)) }

/-- The decisions committed when a vertex is rejected at admission: its
unknown transactions are rejected, then the vertex itself. -/
def addRejDs (s : St) (v : Vtx) : List Decision :=
  (addNews s v).map Decision.txRej ++ [Decision.vtxRej v]

/-- Admission of a vertex that is rejected outright (failed verify or a
rejected parent). -/
def addReject (s : St) (v : Vtx) : ARes :=
  match execDecisions (addRejDs s v) (addRejBase s v) with
  | (some e, s2) => { acc := [], rej := [], err := some e, st := s2 }
  | (none, s2) => { acc := [], rej := [v.id], err := none, st := s2 }

/-- The state a normally admitted vertex is committed onto: the unknown
transactions registered with Snowstorm (input-free ones outside any
conflict set), then the vertex placed in the processing DAG. -/
def addIssueBase (s : St) (v : Vtx) : St :=
  registerVtx ((addNews s v).foldl
    (fun a t => if t.inputs.isEmpty then registerDecidedTx a t else registerTx a t) s) v

/-- The decisions committed at normal admission: every new input-free
transaction is vacuously accepted. -/
def addIssueDs (s : St) (v : Vtx) : List Decision :=
  ((addNews s v).filter (fun t => t.inputs.isEmpty)).map Decision.txAcc

/-- Normal admission of a vertex into the processing DAG. -/
def addIssue (s : St) (v : Vtx) : ARes :=
  match execDecisions (addIssueDs s v) (addIssueBase s v) with
  | (some e, s2) => { acc := [], rej := [], err := some e, st := s2 }
  | (none, s2) => { acc := [], rej := [], err := none, st := s2 }

/-- Modelled from the spec: `add(vertex)` is a no-op with an empty report
when the vertex is already known (processing or decided).  Unresolvable
parents surface a fatal error.  A vertex with a failed transaction verify,
or with a rejected parent, is itself rejected at admission.  Otherwise its
unknown transactions are registered with Snowstorm; a transaction with an
empty input set has nothing to conflict with and is accepted immediately at
admission, surfacing its accept error if the callback fails.  The vertex
then enters the processing DAG; admission never accepts a vertex. -/
def Add (s : St) (v : Vtx) : ARes :=
  if (vtxStatusOf s v.id).isSome then
    { acc := [], rej := [], err := none, st := s }
  else if v.parents.any (fun p => (vtxStatusOf s p).isNone) then
    { acc := [], rej := [], err := some getterErr, st := s }
  else if v.txs.any (fun t => !t.verifyOk)
       || v.parents.any (fun p => vtxStatusOf s p == some Status.rejected) then
    addReject s v
  else
    addIssue s v

/-- A poll is a list of (responder, vertex id) votes. -/
def Votes : Type := List (Nat × Nat)

/-- The distinct vertex ids a responder named in a poll. -/
def voteIds (w : Votes) (r : Nat) : List Nat :=
  ((List.filter (fun p => p.1 == r) w).map Prod.snd).dedup

/-- The distinct responders of a poll. -/
def responders (w : Votes) : List Nat :=
  (List.map Prod.fst w).dedup

/-- Modelled from the spec: vote validation keeps only the responders that
named exactly one vertex id; a responder naming two or more distinct ids in
the same poll is discarded entirely. -/
def filteredResponders (w : Votes) : List Nat :=
  (responders w).filter (fun r => (voteIds w r).length == 1)

/-- The valid responders of a poll, as a finite set. -/
def respSet (w : Votes) : Finset Nat :=
  (filteredResponders w).toFinset

/-- All vertex ids mentioned by the registered vertices, as holders or as
parents: the universe the ancestor closure lives in. -/
def idUniverse (s : St) : Finset Nat :=
  s.vtxs.foldl (fun a v => insert v.id a ∪ v.parents.toFinset) ∅

/-- One expansion step of the ancestor closure: add the parents of every
member that is currently processing. -/
def pstep (s : St) (S : Finset Nat) : Finset Nat :=
  S ∪ S.biUnion (fun x => if isProcessingVtx s x then (parentsOf s x).toFinset else ∅)

/-- Modelled from the spec: the ancestor closure of a voted vertex id: the
id itself together with every ancestor reachable through parents of
processing vertices (stopping below Accepted ancestors).  Iterating the
expansion step as many times as the universe has elements reaches the fixed
point. -/
def closureOf (s : St) (y : Nat) : Finset Nat :=
  (pstep s)^[(insert y (idUniverse s)).card] {y}

/-- Whether the unique vote of a responder reaches vertex `v` through the
ancestor closure. -/
def voteHit (s : St) (w : Votes) (r v : Nat) : Bool :=
  match voteIds w r with
  | [y] => decide (v ∈ closureOf s y)
  | _ => false

/-- The valid responders whose vote counts for vertex `v` in this poll,
directly or through a processing descendant. -/
def votersF (s : St) (w : Votes) (v : Nat) : Finset Nat :=
  (respSet w).filter (fun r => voteHit s w r v = true)

/-- The processing vertices carrying transaction `t`. -/
def txCarriers (s : St) (t : Nat) : Finset Nat :=
  ((s.vtxs.filter (fun v => isProcessingVtx s v.id
      && (v.txs.map Tx.id).contains t)).map Vtx.id).toFinset

/-- The responders whose vote counts for transaction `t`: the union of the
voters of every processing vertex carrying it. -/
def txVotersF (s : St) (w : Votes) (t : Nat) : Finset Nat :=
  (txCarriers s t).biUnion (votersF s w)

/-- Record a chit on every processing vertex whose tally reached alpha. -/
def updateChits (s : St) (w : Votes) : St :=
  { s with chits := s.vtxs.foldl (fun a v =>
      if isProcessingVtx s v.id && decide (s.params.alpha ≤ (votersF s w v.id).card) then
        nstore a v.id (nlookup a v.id + 1)
      else a) s.chits }

/-- Modelled from the spec: one Snowstorm round: walk the registered
transactions in order and, for each processing transaction whose tally
reached alpha, run the Snowball update on its conflict set, marking the set
as having had a successful poll this round. -/
def snowRound (s : St) (w : Votes) : List (CSet × Bool) :=
  s.txs.foldl
    (fun acc t =>
      if isProcessingTx s t.id && decide (s.params.alpha ≤ (txVotersF s w t.id).card) then
        acc.map (fun cb => if cb.1.members.contains t.id then (sbUpdate cb.1 t.id, true) else cb)
      else acc)
    (s.csets.map (fun cs => (cs, false)))

/-- Whether a conflict set has crossed its applicable confidence threshold. -/
def csFinalized (ps : Params) (cs : CSet) : Bool :=
  decide (csBeta ps cs ≤ cs.conf)

/-- Modelled from the spec: after the round, a conflict set without a
successful poll resets its confidence; the sets that crossed their
threshold are split off for finalization, the others stay live.  Returns
(kept sets, finalized sets). -/
def snowSettle (s : St) (w : Votes) : List CSet × List CSet :=
  let rd := (snowRound s w).map (fun cb => if cb.2 then cb.1 else { cb.1 with conf := 0 })
  (rd.filter (fun cs => !csFinalized s.params cs), rd.filter (fun cs => csFinalized s.params cs))

/-- The registered transaction record of an id (a vacuous default for
unregistered ids, which finalization never produces). -/
def txRecOf (s : St) (t : Nat) : Tx :=
  (s.txs.find? (fun x => x.id == t)).getD { id := t, inputs := [] }

/-- Modelled from the spec: a finalized conflict set accepts its preferred
transaction and rejects every other member. -/
def csDecisions (s : St) (fin : List CSet) : List Decision :=
  fin.foldl (fun a cs =>
    a ++ [Decision.txAcc (txRecOf s cs.pref)]
      ++ (cs.members.filter (fun m => m != cs.pref)).map (fun m => Decision.txRej (txRecOf s m))) []

/-- A processing vertex becomes acceptable when every parent is Accepted
and every transaction it carries is Accepted. -/
def vtxAcceptable (s : St) (v : Vtx) : Bool :=
  isProcessingVtx s v.id
  && v.parents.all (fun p => vtxStatusOf s p == some Status.accepted)
  && v.txs.all (fun t => txStatusOf s t.id == some Status.accepted)

/-- A processing vertex becomes rejectable when some parent is Rejected or
some transaction it carries is Rejected. -/
def vtxRejectable (s : St) (v : Vtx) : Bool :=
  isProcessingVtx s v.id
  && (v.parents.any (fun p => vtxStatusOf s p == some Status.rejected)
      || v.txs.any (fun t => txStatusOf s t.id == some Status.rejected))

/-- Repeatedly pick the first vertex satisfying the given condition, apply
the corresponding decision, and collect it; stops at a fixed point.  The
fuel is the number of registered vertices, enough to decide each at most
once. -/
def collectLoop (p : St → Vtx → Bool) (mk : Vtx → Decision) :
    Nat → St → List Vtx → St × List Vtx
  | 0, s, acc => (s, acc)
  | Nat.succ fuel, s, acc =>
      match s.vtxs.find? (fun v => p s v) with
      | some v => collectLoop p mk fuel (applyDecision s (mk v)) (acc ++ [v])
      | none => (s, acc)

/-- Modelled from the spec: the pure planning phase of a poll: settle the
Snowstorm layer, then compute the cascade of vertex acceptances (in
topological order, parents first) followed by the cascade of vertex
rejections (including descendants of rejected vertices).  Returns the full
ordered decision list, the accepted vertices, the rejected vertices and the
surviving conflict sets. -/
def pollCore (s : St) (w : Votes) : List Decision × List Vtx × List Vtx × List CSet :=
  let kf := snowSettle s w
  let tds := csDecisions s kf.2
  let spure := tds.foldl applyDecision { s with csets := kf.1 }
  let ar := collectLoop vtxAcceptable Decision.vtxAcc s.vtxs.length spure []
  let rr := collectLoop vtxRejectable Decision.vtxRej s.vtxs.length ar.1 []
  (tds ++ ar.2.map Decision.vtxAcc ++ rr.2.map Decision.vtxRej, ar.2, rr.2, kf.1)

/-- The ordered accept and reject decisions a poll commits. -/
def pollDecisions (s : St) (w : Votes) : List Decision :=
  (pollCore s w).1

/-- The state a poll commits its decisions onto: chits recorded and the
finalized conflict sets retired. -/
def pollCommitStart (s : St) (w : Votes) : St :=
  { updateChits s w with csets := (pollCore s w).2.2.2 }

/-- The vertex ids a poll newly accepts, in commit order. -/
def pollAccIds (s : St) (w : Votes) : List Nat :=
  ((pollCore s w).2.1).map Vtx.id

/-- The vertex ids a poll newly rejects, in commit order. -/
def pollRejIds (s : St) (w : Votes) : List Nat :=
  ((pollCore s w).2.2.1).map Vtx.id

/-- Modelled from the spec: `recordPoll(votes)` filters illegal split
votes; when fewer than alpha valid responders remain the poll cannot move
anything and is skipped entirely.  Otherwise chits are recorded, the
Snowstorm layer settles, and the resulting accept and reject decisions are
committed in order; a failing accept or reject callback aborts the commit
and surfaces its error with an empty report. -/
def RecordPoll (s : St) (w : Votes) : ARes :=
  if (filteredResponders w).length < s.params.alpha then
    { acc := [], rej := [], err := none, st := s }
  else
    match execDecisions (pollDecisions s w) (pollCommitStart s w) with
    | (some e, s2) => { acc := [], rej := [], err := some e, st := s2 }
    | (none, s2) =>
        { acc := pollAccIds s w, rej := pollRejIds s w, err := none, st := s2 }

/-- Modelled from the spec, pinned by the test suite: the instance is
finalized when every transaction ever admitted has reached a terminal
status (the test suite requires this even when the vertex DAG is already
empty). -/
def Finalized (s : St) : Bool :=
  s.txStatus.all (fun p => p.2 != Status.processing)

/-- Whether a transaction is the current preference of its conflict set. -/
def txPreferred (s : St) (t : Nat) : Bool :=
  s.csets.any (fun cs => cs.members.contains t && cs.pref == t)

/-- A transaction counts toward vertex preference when it is Accepted or is
the live preference of its conflict set. -/
def txGood (s : St) (t : Nat) : Bool :=
  txStatusOf s t == some Status.accepted || (isProcessingTx s t && txPreferred s t)

/-- Whether a transaction is virtuous: its conflict set has never been
rogue. -/
def txVirtuous (s : St) (t : Nat) : Bool :=
  s.csets.any (fun cs => cs.members.contains t && !cs.rogue)

/-- Modelled from the spec, pinned by the test suite: the instance
quiesces when no processing transaction is virtuous, i.e. no virtuous work
is awaiting votes. -/
def Quiesce (s : St) : Bool :=
  !(s.txs.any (fun t => isProcessingTx s t.id && txVirtuous s t.id))

/-- Fuel-bounded vertex preference: Accepted vertices are preferred; a
processing vertex is preferred when all its transactions are good and all
its parents are preferred. -/
def preferredB (s : St) : Nat → Nat → Bool
  | 0, _ => false
  | Nat.succ fuel, x =>
      match vtxStatusOf s x with
      | some Status.accepted => true
      | some Status.processing =>
          (txIdsOf s x).all (fun t => txGood s t)
          && (parentsOf s x).all (fun p => preferredB s fuel p)
      | _ => false

/-- Vertex preference at full fuel. -/
def preferredVtx (s : St) (x : Nat) : Bool :=
  preferredB s (s.vtxs.length + 1) x

/-- Modelled from the spec: the preferred frontier: preferred vertices
without a preferred child. -/
def Preferences (s : St) : List Nat :=
  (s.vtxs.filter (fun v => preferredVtx s v.id
      && !(s.vtxs.any (fun c => c.parents.contains v.id && preferredVtx s c.id)))).map Vtx.id

/-- Fuel-bounded vertex virtue: Accepted vertices are virtuous; a
processing vertex is virtuous when every transaction it carries is Accepted
or virtuous and all its parents are virtuous. -/
def virtB (s : St) : Nat → Nat → Bool
  | 0, _ => false
  | Nat.succ fuel, x =>
      match vtxStatusOf s x with
      | some Status.accepted => true
      | some Status.processing =>
          (txIdsOf s x).all (fun t => txStatusOf s t == some Status.accepted || txVirtuous s t)
          && (parentsOf s x).all (fun p => virtB s fuel p)
      | _ => false

/-- Vertex virtue at full fuel. -/
def virtuousVtx (s : St) (x : Nat) : Bool :=
  virtB s (s.vtxs.length + 1) x

/-- Modelled from the spec: the virtuous frontier: virtuous vertices
without a virtuous child.  (The Go engine caches this set between frontier
updates; the model recomputes it from the current state.) -/
def Virtuous (s : St) : List Nat :=
  (s.vtxs.filter (fun v => virtuousVtx s v.id
      && !(s.vtxs.any (fun c => c.parents.contains v.id && virtuousVtx s c.id)))).map Vtx.id

/-- Modelled from the spec: the orphans: processing transactions that are
preferred in their conflict set but are carried by no preferred processing
vertex, so no current vertex can carry them to acceptance. -/
def Orphans (s : St) : List Nat :=
  (s.txs.filter (fun t => isProcessingTx s t.id && txPreferred s t.id
      && !(s.vtxs.any (fun v => isProcessingVtx s v.id
            && (v.txs.map Tx.id).contains t.id && preferredVtx s v.id)))).map Tx.id

/-!
Concrete scenarios, taken from the test suite of the repository.  Opaque
identifiers are fixed numbers: genesis vertices 0 and 1, further vertices
from 2, transactions from 10, inputs from 100, responders from 0.
-/

/-- Parameters of the two-conflicting-vertices scenario (VotingTest):
k=2, alpha=2, betaVirtuous=1, betaRogue=2. -/
def votingParams : Params := { k := 2, alpha := 2, betaVirtuous := 1, betaRogue := 2 }

/-- Genesis vertex G0. -/
def gen0 : Vtx := { id := 0, parents := [], txs := [] }

/-- Genesis vertex G1. -/
def gen1 : Vtx := { id := 1, parents := [], txs := [] }

/-- tx0 of the voting scenario, consuming input U0 = 100. -/
def vTx0 : Tx := { id := 10, inputs := [100] }

/-- tx1 of the voting scenario, also consuming input U0 = 100. -/
def vTx1 : Tx := { id := 11, inputs := [100] }

/-- Vertex V0 of the voting scenario, carrying tx0, parents G0 and G1. -/
def vV0 : Vtx := { id := 2, parents := [0, 1], txs := [vTx0] }

/-- Vertex V1 of the voting scenario, carrying tx1, parents G0 and G1. -/
def vV1 : Vtx := { id := 3, parents := [0, 1], txs := [vTx1] }

/-- Voting scenario state after initialization and adding V0 and V1. -/
def votingS2 : St := (Add (Add (Initialize votingParams [gen0, gen1]) vV0).st vV1).st

/-- The unanimous poll for V1: both responders name V1. -/
def votingPoll : Votes := [(0, 3), (1, 3)]

/-- Result of the first unanimous poll for V1. -/
def votingR1 : ARes := RecordPoll votingS2 votingPoll

/-- Result of the second unanimous poll for V1. -/
def votingR2 : ARes := RecordPoll votingR1.st votingPoll

/-- The processing-ancestor relation of the DAG: `PAncestor s u v` holds
when `u` is reachable from `v` through parent edges of processing vertices
(including `u = v`); the final vertex `u` itself may be of any status, so
chains stop below Accepted ancestors. -/
inductive PAncestor (s : St) : Nat → Nat → Prop
  | refl (v : Nat) : PAncestor s v v
  | step {v mid u : Nat} :
      PAncestor s mid v → isProcessingVtx s mid = true → u ∈ parentsOf s mid →
      PAncestor s u v

/-- Parameters of the invalid-vote scenario (IgnoreInvalidVotingTest):
k=3, alpha=2, betaVirtuous=1, betaRogue=1. -/
def invParams : Params := { k := 3, alpha := 2, betaVirtuous := 1, betaRogue := 1 }

/-- Invalid-vote scenario state: same DAG as the voting scenario (V0 with
tx0 and V1 with tx1 conflicting on U0) under invParams. -/
def invS2 : St := (Add (Add (Initialize invParams [gen0, gen1]) vV0).st vV1).st

/-- The invalid-vote poll: responder 0 votes V0, responder 1 votes V1, and
responder 2 illegally votes for both V0 and V1. -/
def invPoll : Votes := [(0, 2), (1, 3), (2, 2), (2, 3)]

/-- Result of the invalid-vote poll. -/
def invR : ARes := RecordPoll invS2 invPoll

/-- tx0 of the transitive-voting scenario, consuming U0 = 100. -/
def tvTx0 : Tx := { id := 10, inputs := [100] }

/-- tx1 of the transitive-voting scenario, consuming U1 = 101. -/
def tvTx1 : Tx := { id := 11, inputs := [101] }

/-- V0 of the transitive-voting scenario, carrying tx0 over the genesis. -/
def tvV0 : Vtx := { id := 2, parents := [0, 1], txs := [tvTx0] }

/-- V1 of the transitive-voting scenario, carrying tx1, child of V0. -/
def tvV1 : Vtx := { id := 3, parents := [2], txs := [tvTx1] }

/-- V2 of the transitive-voting scenario, carrying tx1 again, child of V1. -/
def tvV2 : Vtx := { id := 4, parents := [3], txs := [tvTx1] }

/-- Transitive-voting scenario state after adding V0, V1 and V2. -/
def tvS3 : St :=
  (Add (Add (Add (Initialize votingParams [gen0, gen1]) tvV0).st tvV1).st tvV2).st

/-- First transitive-voting poll: responder 0 votes V0, responder 1 votes
V2. -/
def tvPoll1 : Votes := [(0, 2), (1, 4)]

/-- Second transitive-voting poll: both responders vote V2. -/
def tvPoll2 : Votes := [(0, 4), (1, 4)]

/-- Result of the first transitive-voting poll. -/
def tvR1 : ARes := RecordPoll tvS3 tvPoll1

/-- Result of the second transitive-voting poll. -/
def tvR2 : ARes := RecordPoll tvR1.st tvPoll2

/-- The shared transaction of the split-voting scenario, on U0 = 100. -/
def svTx0 : Tx := { id := 10, inputs := [100] }

/-- V0 of the split-voting scenario, carrying the shared tx0. -/
def svV0 : Vtx := { id := 2, parents := [0, 1], txs := [svTx0] }

/-- V1 of the split-voting scenario, also carrying the shared tx0. -/
def svV1 : Vtx := { id := 3, parents := [0, 1], txs := [svTx0] }

/-- Split-voting scenario state after adding both vertices. -/
def svS2 : St := (Add (Add (Initialize votingParams [gen0, gen1]) svV0).st svV1).st

/-- The split-voting poll: responder 0 votes V0, responder 1 votes V1. -/
def svPoll : Votes := [(0, 2), (1, 3)]

/-- Result of the split-voting poll. -/
def svR : ARes := RecordPoll svS2 svPoll

/-- tx2 of the transitive-rejection scenario, consuming U1 = 101. -/
def trTx2 : Tx := { id := 12, inputs := [101] }

/-- V2 of the transitive-rejection scenario, carrying tx2, child of V0. -/
def trV2 : Vtx := { id := 4, parents := [2], txs := [trTx2] }

/-- Transitive-rejection scenario state: V0 with tx0 and V1 with tx1
conflict on U0; V2 carries tx2 on U1 below V0. -/
def trS3 : St :=
  (Add (Add (Add (Initialize votingParams [gen0, gen1]) vV0).st vV1).st trV2).st

/-- Result of the first unanimous poll for V1 in the transitive-rejection
scenario. -/
def trR1 : ARes := RecordPoll trS3 votingPoll

/-- Result of the second unanimous poll for V1. -/
def trR2 : ARes := RecordPoll trR1.st votingPoll

/-- Result of a third identical poll, after everything vertex-level is
decided. -/
def trR3 : ARes := RecordPoll trR2.st votingPoll

/-- Parameters of the quiesce scenario (QuiesceTest): k=1, alpha=1,
betaVirtuous=1, betaRogue=1. -/
def qParams : Params := { k := 1, alpha := 1, betaVirtuous := 1, betaRogue := 1 }

/-- tx2 of the quiesce scenario, consuming U1 = 101. -/
def qTx2 : Tx := { id := 12, inputs := [101] }

/-- V2 of the quiesce scenario, carrying tx2 over the genesis. -/
def qV2 : Vtx := { id := 4, parents := [0, 1], txs := [qTx2] }

/-- Quiesce scenario state after adding V0 (carrying tx0 on U0). -/
def qS1 : St := (Add (Initialize qParams [gen0, gen1]) vV0).st

/-- Quiesce scenario state after additionally adding V1 (tx1 on U0,
turning the conflict set rogue). -/
def qS2 : St := (Add qS1 vV1).st

/-- Quiesce scenario state after additionally adding V2 (virtuous tx2). -/
def qS3 : St := (Add qS2 qV2).st

/-- Result of the single-responder poll for V2 in the quiesce scenario. -/
def qR : ARes := RecordPoll qS3 [(0, 4)]

/-- Parameters of the error scenarios: k=1, alpha=1, betaVirtuous=1,
betaRogue=1. -/
def eParams : Params := { k := 1, alpha := 1, betaVirtuous := 1, betaRogue := 1 }

/-- The vacuous transaction: empty input set and a failing accept
callback. -/
def vacTxBad : Tx := { id := 10, inputs := [], acceptErr := some 5 }

/-- The vertex carrying the failing vacuous transaction. -/
def vacVtxBad : Vtx := { id := 2, parents := [0], txs := [vacTxBad] }

/-- A vacuous transaction whose accept callback succeeds. -/
def vacTxOk : Tx := { id := 10, inputs := [] }

/-- The vertex carrying the succeeding vacuous transaction. -/
def vacVtxOk : Vtx := { id := 2, parents := [0], txs := [vacTxOk] }

/-- Base state of the vacuous-accept scenario: a single genesis vertex. -/
def vacS0 : St := Initialize eParams [gen0]

/-- A transaction on U0 whose accept callback fails with error 6. -/
def etxBad : Tx := { id := 10, inputs := [100], acceptErr := some 6 }

/-- The vertex carrying etxBad. -/
def etxVtx : Vtx := { id := 2, parents := [0], txs := [etxBad] }

/-- Result of the poll that tries to accept the failing transaction. -/
def etxR : ARes := RecordPoll (Add vacS0 etxVtx).st [(0, 2)]

/-- A healthy transaction on U0. -/
def evTx0 : Tx := { id := 10, inputs := [100] }

/-- A vertex with a failing accept callback, carrying evTx0. -/
def evVtxBad : Vtx := { id := 2, parents := [0], txs := [evTx0], acceptErr := some 7 }

/-- Result of the poll that tries to accept the failing vertex. -/
def evR : ARes := RecordPoll (Add vacS0 evVtxBad).st [(0, 2)]

/-- tx1 of the transitive-reject error scenario, conflicting with evTx0 on
U0. -/
def evTx1 : Tx := { id := 11, inputs := [100] }

/-- V0 of the transitive-reject error scenario, carrying evTx0. -/
def erV0 : Vtx := { id := 2, parents := [0], txs := [evTx0] }

/-- V1 of the transitive-reject error scenario, carrying the conflicting
evTx1. -/
def erV1 : Vtx := { id := 3, parents := [0], txs := [evTx1] }

/-- V2 of the transitive-reject error scenario: a childless vertex below
V1 whose reject callback fails with error 8. -/
def erV2 : Vtx := { id := 4, parents := [3], txs := [], rejectErr := some 8 }

/-- Transitive-reject error scenario state after adding V0, V1 and V2. -/
def erS3 : St := (Add (Add (Add vacS0 erV0).st erV1).st erV2).st

/-- Result of the single-responder poll for V0, which accepts tx0 and V0,
rejects tx1 and V1, and fails while rejecting V2 transitively. -/
def erR : ARes := RecordPoll erS3 [(0, 2)]

/-!
General lemmas about the embedding, followed by the claim theorems.
-/

set_option maxRecDepth 10000

theorem applyDecision_events (s : St) (d : Decision) :
    (applyDecision s d).events = s.events ++ [eventOf d] := by
  cases d <;> rfl

theorem applyDecision_vtxStatus_txAcc (s : St) (t : Tx) :
    (applyDecision s (Decision.txAcc t)).vtxStatus = s.vtxStatus := rfl

theorem execDecisions_err :
    ∀ (ds : List Decision) (s : St) (e : Nat) (s2 : St),
      execDecisions ds s = (some e, s2) →
      ∃ ds1 d ds2, ds = ds1 ++ d :: ds2
        ∧ (∀ x ∈ ds1, decisionErr x = none)
        ∧ decisionErr d = some e
        ∧ s2.events = s.events ++ ds1.map eventOf ++ [eventOf d]
  | [], s, e, s2 => by
      intro h
      simp [execDecisions] at h
  | d :: ds, s, e, s2 => by
      intro h
      unfold execDecisions at h
      cases hd : decisionErr d with
      | some e0 =>
          rw [hd] at h
          have he : some e0 = some e := congrArg Prod.fst h
          have hs : applyDecision s d = s2 := congrArg Prod.snd h
          refine ⟨[], d, ds, rfl, ?_, ?_, ?_⟩
          · intro x hx; exact absurd hx (List.not_mem_nil x)
          · rw [hd]; exact he
          · rw [← hs, applyDecision_events]; simp
      | none =>
          rw [hd] at h
          obtain ⟨ds1, d1, ds2, e1, e2, e3, e4⟩ :=
            execDecisions_err ds (applyDecision s d) e s2 h
          refine ⟨d :: ds1, d1, ds2, by rw [e1]; rfl, ?_, e3, ?_⟩
          · intro x hx
            rcases List.mem_cons.mp hx with hx | hx
            · rw [hx]; exact hd
            · exact e2 x hx
          · rw [e4, applyDecision_events]
            simp

theorem alookup_cons (p : Nat × Status) (t : List (Nat × Status)) (x : Nat) :
    alookup (p :: t) x = if p.1 == x then some p.2 else alookup t x := by
  unfold alookup
  cases h : (p.1 == x) <;> simp [List.find?_cons, h]

theorem alookup_map_replace_ne (l : List (Nat × Status)) (k x : Nat) (v : Status)
    (hx : x ≠ k) :
    alookup (l.map (fun p => if p.1 == k then (k, v) else p)) x = alookup l x := by
  induction l with
  | nil => rfl
  | cons p t ih =>
      rw [List.map_cons]
      by_cases hpk : (p.1 == k) = true
      · rw [if_pos hpk, alookup_cons, alookup_cons]
        have hkx : (k == x) = false := by
          simp only [beq_eq_false_iff_ne, ne_eq]
          exact fun hc => hx hc.symm
        have hpx : (p.1 == x) = false := by
          simp only [beq_eq_false_iff_ne, ne_eq]
          intro hc
          apply hx
          rw [← hc]
          exact beq_iff_eq.mp hpk
        rw [hkx, hpx]
        simpa using ih
      · rw [if_neg hpk, alookup_cons, alookup_cons]
        by_cases hpx : (p.1 == x) = true
        · rw [hpx]; simp
        · rw [eq_false_of_ne_true hpx]
          simpa using ih

theorem alookup_map_replace_eq (l : List (Nat × Status)) (k : Nat) (v : Status)
    (hany : l.any (fun p => p.1 == k) = true) :
    alookup (l.map (fun p => if p.1 == k then (k, v) else p)) k = some v := by
  induction l with
  | nil => simp at hany
  | cons p t ih =>
      rw [List.map_cons]
      by_cases hpk : (p.1 == k) = true
      · rw [if_pos hpk, alookup_cons]
        simp
      · rw [if_neg hpk, alookup_cons, eq_false_of_ne_true hpk]
        simp only [Bool.false_eq_true, if_false]
        apply ih
        rw [List.any_cons, eq_false_of_ne_true hpk] at hany
        simpa using hany

theorem alookup_append_right_none (l : List (Nat × Status)) (k x : Nat) (v : Status)
    (hx : x ≠ k) :
    alookup (l ++ [(k, v)]) x = alookup l x := by
  unfold alookup
  rw [List.find?_append]
  cases hf : l.find? (fun p => p.1 == x) with
  | some p => simp [Option.or]
  | none =>
      have : (k == x) = false := by
        simp only [beq_eq_false_iff_ne, ne_eq]
        exact fun hc => hx hc.symm
      simp [Option.or, List.find?, this]

theorem alookup_append_self (l : List (Nat × Status)) (k : Nat) (v : Status)
    (hany : l.any (fun p => p.1 == k) = false) :
    alookup (l ++ [(k, v)]) k = some v := by
  unfold alookup
  rw [List.find?_append]
  have hf : l.find? (fun p => p.1 == k) = none := by
    rw [List.find?_eq_none]
    intro p hp
    have := (List.any_eq_false.mp hany) p hp
    simpa using this
  rw [hf]
  simp [Option.or, List.find?]

theorem alookup_sstore (l : List (Nat × Status)) (k x : Nat) (v : Status) :
    alookup (sstore l k v) x = if x = k then some v else alookup l x := by
  unfold sstore
  by_cases hany : l.any (fun p => p.1 == k) = true
  · rw [if_pos hany]
    by_cases hxk : x = k
    · rw [if_pos hxk, hxk]
      exact alookup_map_replace_eq l k v hany
    · rw [if_neg hxk]
      exact alookup_map_replace_ne l k x v hxk
  · rw [if_neg hany]
    by_cases hxk : x = k
    · rw [if_pos hxk, hxk]
      exact alookup_append_self l k v (eq_false_of_ne_true hany)
    · rw [if_neg hxk]
      exact alookup_append_right_none l k x v hxk

theorem vtxStatusOf_applyDecision_ne (s : St) (d : Decision) (x : Nat)
    (hd : ∀ v : Vtx, d ≠ Decision.vtxAcc v)
    (h : vtxStatusOf s x ≠ some Status.accepted) :
    vtxStatusOf (applyDecision s d) x ≠ some Status.accepted := by
  cases d with
  | txAcc t => exact h
  | txRej t => exact h
  | vtxAcc v => exact absurd rfl (hd v)
  | vtxRej v =>
      show alookup (sstore s.vtxStatus v.id Status.rejected) x ≠ some Status.accepted
      rw [alookup_sstore]
      by_cases hx : x = v.id
      · rw [if_pos hx]
        intro hc
        exact Status.noConfusion (Option.some.inj hc)
      · rw [if_neg hx]
        exact h

theorem execDecisions_not_accepted :
    ∀ (ds : List Decision) (s : St) (x : Nat),
      (∀ v : Vtx, Decision.vtxAcc v ∉ ds) →
      vtxStatusOf s x ≠ some Status.accepted →
      vtxStatusOf (execDecisions ds s).2 x ≠ some Status.accepted
  | [], s, x => fun _ h => h
  | d :: ds, s, x => by
      intro hds h
      have hd1 : ∀ v : Vtx, d ≠ Decision.vtxAcc v := by
        intro v hv
        exact hds v (by rw [hv]; exact List.mem_cons_self _ _)
      have h2 := vtxStatusOf_applyDecision_ne s d x hd1 h
      unfold execDecisions
      cases hd : decisionErr d with
      | some e => exact h2
      | none =>
          exact execDecisions_not_accepted ds (applyDecision s d) x
            (fun v hv => hds v (List.mem_cons_of_mem _ hv)) h2

theorem alookup_append_not_accepted (l1 l2 : List (Nat × Status)) (x : Nat)
    (h : alookup l1 x ≠ some Status.accepted)
    (h2 : ∀ p ∈ l2, p.2 ≠ Status.accepted) :
    alookup (l1 ++ l2) x ≠ some Status.accepted := by
  unfold alookup at *
  rw [List.find?_append]
  cases hf : l1.find? (fun p => p.1 == x) with
  | some p =>
      rw [hf] at h
      simpa [Option.or] using h
  | none =>
      cases hf2 : l2.find? (fun p => p.1 == x) with
      | none => simp [Option.or, hf2]
      | some p =>
          have hp := h2 p (List.mem_of_find?_eq_some hf2)
          simp only [Option.or, hf2, Option.map]
          intro hc
          exact hp (Option.some.inj hc)

theorem foldl_register_vtxStatus (l : List Tx) (s : St) :
    (l.foldl (fun a t => if t.inputs.isEmpty then registerDecidedTx a t else registerTx a t)
      s).vtxStatus = s.vtxStatus := by
  induction l generalizing s with
  | nil => rfl
  | cons t ts ih =>
      rw [List.foldl_cons, ih]
      by_cases ht : t.inputs.isEmpty = true
      · rw [if_pos ht]; rfl
      · rw [if_neg ht]; rfl

theorem addReject_st (s : St) (v : Vtx) :
    (addReject s v).st = (execDecisions (addRejDs s v) (addRejBase s v)).2 := by
  unfold addReject
  rcases h : execDecisions (addRejDs s v) (addRejBase s v) with ⟨oe, s2⟩
  cases oe <;> rfl

theorem addIssue_st (s : St) (v : Vtx) :
    (addIssue s v).st = (execDecisions (addIssueDs s v) (addIssueBase s v)).2 := by
  unfold addIssue
  rcases h : execDecisions (addIssueDs s v) (addIssueBase s v) with ⟨oe, s2⟩
  cases oe <;> rfl

theorem addRejBase_not_accepted (s : St) (v : Vtx) (x : Nat)
    (h : vtxStatusOf s x ≠ some Status.accepted) :
    vtxStatusOf (addRejBase s v) x ≠ some Status.accepted := by
  show alookup (s.vtxStatus ++ [(v.id, Status.processing)]) x ≠ some Status.accepted
  apply alookup_append_not_accepted _ _ _ h
  intro p hp
  rcases List.mem_cons.mp hp with hp | hp
  · rw [hp]; intro hc; exact Status.noConfusion hc
  · exact absurd hp (List.not_mem_nil _)

theorem addIssueBase_not_accepted (s : St) (v : Vtx) (x : Nat)
    (h : vtxStatusOf s x ≠ some Status.accepted) :
    vtxStatusOf (addIssueBase s v) x ≠ some Status.accepted := by
  show alookup ((addIssueBase s v).vtxStatus) x ≠ some Status.accepted
  have hbase : (addIssueBase s v).vtxStatus =
      s.vtxStatus ++ [(v.id, Status.processing)] := by
    show ((addNews s v).foldl _ s).vtxStatus ++ [(v.id, Status.processing)] = _
    rw [foldl_register_vtxStatus]
  rw [hbase]
  apply alookup_append_not_accepted _ _ _ h
  intro p hp
  rcases List.mem_cons.mp hp with hp | hp
  · rw [hp]; intro hc; exact Status.noConfusion hc
  · exact absurd hp (List.not_mem_nil _)

theorem Add_not_accepted (s : St) (v : Vtx) (x : Nat)
    (h : vtxStatusOf s x ≠ some Status.accepted) :
    vtxStatusOf (Add s v).st x ≠ some Status.accepted := by
  unfold Add
  split
  · exact h
  split
  · exact h
  split
  · rw [addReject_st]
    apply execDecisions_not_accepted
    · intro u hu
      rcases List.mem_append.mp hu with hu | hu
      · obtain ⟨t, _, hut⟩ := List.mem_map.mp hu
        exact Decision.noConfusion hut
      · rcases List.mem_cons.mp hu with hu | hu
        · exact Decision.noConfusion hu
        · exact absurd hu (List.not_mem_nil _)
    · exact addRejBase_not_accepted s v x h
  · rw [addIssue_st]
    apply execDecisions_not_accepted
    · intro u hu
      obtain ⟨t, _, hut⟩ := List.mem_map.mp hu
      exact Decision.noConfusion hut
    · exact addIssueBase_not_accepted s v x h

theorem Add_acc_nil (s : St) (v : Vtx) : (Add s v).acc = [] := by
  unfold Add
  split
  · rfl
  split
  · rfl
  split
  · unfold addReject
    rcases h : execDecisions (addRejDs s v) (addRejBase s v) with ⟨oe, s2⟩
    cases oe <;> rfl
  · unfold addIssue
    rcases h : execDecisions (addIssueDs s v) (addIssueBase s v) with ⟨oe, s2⟩
    cases oe <;> rfl

theorem RecordPoll_result (s : St) (w : Votes) :
    RecordPoll s w = { acc := [], rej := [], err := none, st := s }
    ∨ (∃ e s2, execDecisions (pollDecisions s w) (pollCommitStart s w) = (some e, s2)
        ∧ RecordPoll s w = { acc := [], rej := [], err := some e, st := s2 })
    ∨ (∃ s2, execDecisions (pollDecisions s w) (pollCommitStart s w) = (none, s2)
        ∧ RecordPoll s w = { acc := pollAccIds s w, rej := pollRejIds s w, err := none, st := s2 }) := by
  by_cases hc : (filteredResponders w).length < s.params.alpha
  · left
    unfold RecordPoll
    rw [if_pos hc]
  · rcases hx : execDecisions (pollDecisions s w) (pollCommitStart s w) with ⟨oe, s2⟩
    cases oe with
    | some e =>
        right; left
        refine ⟨e, s2, rfl, ?_⟩
        unfold RecordPoll
        rw [if_neg hc, hx]
    | none =>
        right; right
        refine ⟨s2, rfl, ?_⟩
        unfold RecordPoll
        rw [if_neg hc, hx]

theorem Add_rej_shape (s : St) (v : Vtx) :
    (Add s v).rej = [] ∨ ((Add s v).rej = [v.id] ∧ (Add s v).err = none) := by
  unfold Add
  split
  · left; rfl
  split
  · left; rfl
  split
  · unfold addReject
    rcases hx : execDecisions (addRejDs s v) (addRejBase s v) with ⟨oe, s2⟩
    cases oe with
    | some e => left; rfl
    | none => right; exact ⟨rfl, rfl⟩
  · unfold addIssue
    rcases hx : execDecisions (addIssueDs s v) (addIssueBase s v) with ⟨oe, s2⟩
    cases oe with
    | some e => left; rfl
    | none => left; rfl

theorem Finalized_no_processing (s : St) (h : Finalized s = true) (t : Nat) :
    txStatusOf s t ≠ some Status.processing := by
  unfold Finalized at h
  unfold txStatusOf alookup
  cases hf : s.txStatus.find? (fun p => p.1 == t) with
  | none => simp
  | some p =>
      have hp := List.mem_of_find?_eq_some hf
      have hall := (List.all_eq_true.mp h) p hp
      simp only [Option.map]
      intro hc
      have hpe : p.2 = Status.processing := Option.some.inj hc
      rw [hpe] at hall
      simp at hall

/-- Claim C1: in the two-conflicting-vertices scenario (k=2, alpha=2,
betaVirtuous=1, betaRogue=2; V0 with tx0 and V1 with tx1 both consuming
U0), the first unanimous poll for V1 returns empty accepted and rejected
sets, leaves the preferred frontier at V1 and the instance unfinalized;
the second identical poll accepts V1 and rejects V0, after which the
instance is finalized, tx0 is Rejected and tx1 is Accepted. -/
theorem claim_C1 :
    votingR1.acc = [] ∧ votingR1.rej = [] ∧ votingR1.err = none
    ∧ Preferences votingR1.st = [3] ∧ Finalized votingR1.st = false
    ∧ votingR2.acc = [3] ∧ votingR2.rej = [2] ∧ votingR2.err = none
    ∧ Finalized votingR2.st = true
    ∧ txStatusOf votingR2.st 10 = some Status.rejected
    ∧ txStatusOf votingR2.st 11 = some Status.accepted := by
  decide

/-- Claim C3: in the transitive-rejection scenario (V0 with tx0 and V1
with tx1 conflicting on U0, V2 with tx2 on U1 below V0), the first
unanimous poll for V1 only moves the preference; the second accepts V1 and
rejects both V0 and V2; afterwards tx0 is Rejected, tx1 Accepted, tx2
still Processing, and the orphan set contains tx2. -/
theorem claim_C3 :
    trR1.acc = [] ∧ trR1.rej = [] ∧ trR1.err = none
    ∧ Preferences trR1.st = [3]
    ∧ trR2.acc = [3] ∧ trR2.rej = [2, 4] ∧ trR2.err = none
    ∧ txStatusOf trR2.st 10 = some Status.rejected
    ∧ txStatusOf trR2.st 11 = some Status.accepted
    ∧ txStatusOf trR2.st 12 = some Status.processing
    ∧ Orphans trR2.st = [12] := by
  decide

/-- Claim C4 counterexample: after the second transitive-rejection poll
the processing DAG is empty (every vertex ever added is decided), yet
finalized() is false — refuting the claim that finalized() is true exactly
when the processing DAG is empty. -/
theorem claim_C4_cex :
    processingVtxIds trR2.st = [] ∧ Finalized trR2.st = false := by
  decide

/-- Claim C4, amended: finalized() reports transaction-level finalization:
it is true only when no transaction is still Processing (first conjunct,
in general); the vertex DAG being empty is not sufficient, as the
transitive-rejection scenario leaves an empty DAG with tx2 still
Processing and finalized() false, while the two-conflicting-vertices
scenario finalizes once every transaction is decided. -/
theorem claim_C4 :
    (∀ (s : St) (t : Nat), Finalized s = true → txStatusOf s t ≠ some Status.processing)
    ∧ (processingVtxIds trR2.st = [] ∧ txStatusOf trR2.st 12 = some Status.processing
        ∧ Finalized trR2.st = false)
    ∧ (processingVtxIds votingR2.st = [] ∧ Finalized votingR2.st = true) := by
  refine ⟨fun s t h => Finalized_no_processing s h t, by decide, by decide⟩

/-- Claim C4 witness: the general direction of the amended claim applied
at the finalized voting scenario. -/
theorem claim_C4_witness :
    txStatusOf votingR2.st 10 ≠ some Status.processing :=
  claim_C4.1 votingR2.st 10 (by decide)

/-- Claim C5 counterexample: in the quiesce scenario, after adding V0 and
the conflicting V1, quiesce() is true — refuting the claim that it is
still false (and the claim that quiesce() is true only when no conflict
set is rogue). -/
theorem claim_C5_cex : Quiesce qS2 = true := by
  decide

/-- Claim C5, amended: quiesce() is true exactly when no processing
transaction is virtuous: false after adding V0 (virtuous tx0 awaits
votes), true after adding the conflicting V1 (the conflict set turns rogue
and no virtuous work remains), false again after adding V2 with the
virtuous tx2, and true again after the poll that accepts V2. -/
theorem claim_C5 :
    Quiesce qS1 = false ∧ Quiesce qS2 = true ∧ Quiesce qS3 = false
    ∧ qR.acc = [4] ∧ qR.rej = [] ∧ Quiesce qR.st = true
    ∧ vtxStatusOf qR.st 4 = some Status.accepted := by
  decide

/-- Claim C6 counterexample: adding the vertex whose transaction has an
empty input set and a failing accept callback surfaces that error from
add, and the event log shows the accept callback was invoked during
admission — refuting the claim that no accept effect is triggered by
add. -/
theorem claim_C6_cex :
    (Add vacS0 vacVtxBad).err = some 5
    ∧ (Add vacS0 vacVtxBad).st.events = [Event.txAccept 10] := by
  decide

/-- Claim C6, amended: add never transitions any vertex to Accepted (in
any state, a vertex that was not Accepted is still not Accepted after
add), and the accepted set returned by add is always empty; however a
transaction with an empty input-ID set is accepted immediately during
admission: its accept() is invoked by add, as the vacuous-accept scenario
shows. -/
theorem claim_C6 :
    (∀ (s : St) (v : Vtx) (x : Nat),
        vtxStatusOf s x ≠ some Status.accepted →
        vtxStatusOf (Add s v).st x ≠ some Status.accepted)
    ∧ (∀ (s : St) (v : Vtx), (Add s v).acc = [])
    ∧ ((Add vacS0 vacVtxOk).err = none
        ∧ txStatusOf (Add vacS0 vacVtxOk).st 10 = some Status.accepted
        ∧ (Add vacS0 vacVtxOk).st.events = [Event.txAccept 10]) := by
  exact ⟨Add_not_accepted, Add_acc_nil, by decide⟩

/-- Claim C6 witness: the general no-vertex-acceptance direction applied
at the vacuous-accept scenario. -/
theorem claim_C6_witness :
    vtxStatusOf (Add vacS0 vacVtxOk).st 2 ≠ some Status.accepted :=
  claim_C6.1 vacS0 vacVtxOk 2 (by decide)

/-- Claim C7: a responder naming two or more distinct vertex ids in one
poll contributes zero chits to every vertex (it is never among the voters
of any vertex), and in the k=3, alpha=2 scenario with responder 2 voting
for both V0 and V1 the effective tallies are one each, so the poll returns
empty sets without finalizing. -/
theorem claim_C7 :
    (∀ (w : Votes) (r : Nat), 2 ≤ (voteIds w r).length →
        ∀ (s : St) (v : Nat), r ∉ votersF s w v)
    ∧ ((votersF invS2 invPoll 2).card = 1 ∧ (votersF invS2 invPoll 3).card = 1
        ∧ invR.acc = [] ∧ invR.rej = [] ∧ invR.err = none
        ∧ Finalized invR.st = false) := by
  constructor
  · intro w r h2 s v hmem
    have hr : r ∈ respSet w := (Finset.mem_filter.mp hmem).1
    have hr2 : r ∈ filteredResponders w := List.mem_toFinset.mp hr
    have hf := List.of_mem_filter hr2
    have hlen : (voteIds w r).length = 1 := by simpa using hf
    omega
  · decide

/-- Claim C7 witness: the filtering direction applied to the illegal
responder 2 of the invalid-vote scenario. -/
theorem claim_C7_witness :
    (2 : Nat) ∉ votersF invS2 invPoll 2 :=
  claim_C7.1 invPoll 2 (by decide) invS2 2

/-- Claim C8: adding a vertex that is already processing or already
Accepted returns an empty report with no error and leaves the state (and
hence the preferred frontier, the virtuous set and finalized()) untouched;
recording an empty poll is likewise a complete no-op returning empty
sets. -/
theorem claim_C8 :
    (∀ (s : St) (v : Vtx),
        (vtxStatusOf s v.id = some Status.processing
          ∨ vtxStatusOf s v.id = some Status.accepted) →
        Add s v = { acc := [], rej := [], err := none, st := s })
    ∧ (∀ s : St, 0 < s.params.alpha →
        RecordPoll s [] = { acc := [], rej := [], err := none, st := s }) := by
  constructor
  · intro s v h
    have hc : (vtxStatusOf s v.id).isSome = true := by
      rcases h with h | h <;> rw [h] <;> rfl
    unfold Add
    rw [if_pos hc]
  · intro s h
    unfold RecordPoll
    rw [if_pos]
    exact h

/-- Claim C8 witness: re-adding the already processing V1 of the voting
scenario, and recording an empty poll there. -/
theorem claim_C8_witness :
    Add votingS2 vV1 = { acc := [], rej := [], err := none, st := votingS2 }
    ∧ RecordPoll votingS2 [] = { acc := [], rej := [], err := none, st := votingS2 } :=
  ⟨claim_C8.1 votingS2 vV1 (Or.inl (by decide)), claim_C8.2 votingS2 (by decide)⟩

/-- Claim C9: when recordPoll surfaces an error, the error is exactly the
one reported by the accept or reject callback of some scheduled decision,
every decision committed before it succeeded, and the event log ends with
the failing callback: no further accept or reject is issued in that
call. -/
theorem claim_C9 :
    ∀ (s : St) (w : Votes) (e : Nat),
      (RecordPoll s w).err = some e →
      ∃ ds1 d ds2, pollDecisions s w = ds1 ++ d :: ds2
        ∧ (∀ x ∈ ds1, decisionErr x = none)
        ∧ decisionErr d = some e
        ∧ (RecordPoll s w).st.events =
            (pollCommitStart s w).events ++ ds1.map eventOf ++ [eventOf d] := by
  intro s w e h
  rcases RecordPoll_result s w with h1 | ⟨e2, s2, hx, h1⟩ | ⟨s2, hx, h1⟩
  · rw [h1] at h
    exact absurd h (by simp)
  · rw [h1] at h
    have he : e2 = e := by simpa using h
    subst he
    obtain ⟨ds1, d, ds2, a1, a2, a3, a4⟩ := execDecisions_err _ _ _ _ hx
    refine ⟨ds1, d, ds2, a1, a2, a3, ?_⟩
    rw [h1]
    exact a4
  · rw [h1] at h
    exact absurd h (by simp)

/-- Claim C9 witness: in the transitive-reject error scenario the poll
fails with the reject error of the transitively rejected descendant V2,
after accepting tx0 and V0 and rejecting tx1 and V1. -/
theorem claim_C9_witness :
    ∃ ds1 d ds2, pollDecisions erS3 [(0, 2)] = ds1 ++ d :: ds2
      ∧ (∀ x ∈ ds1, decisionErr x = none)
      ∧ decisionErr d = some 8
      ∧ (RecordPoll erS3 [(0, 2)]).st.events =
          (pollCommitStart erS3 [(0, 2)]).events ++ ds1.map eventOf ++ [eventOf d] :=
  claim_C9 erS3 [(0, 2)] 8 (by decide)

/-- Claim C10: whenever add or recordPoll surfaces an error, the accepted
and rejected id sets they return are both empty. -/
theorem claim_C10 :
    (∀ (s : St) (w : Votes), (RecordPoll s w).err ≠ none →
        (RecordPoll s w).acc = [] ∧ (RecordPoll s w).rej = [])
    ∧ (∀ (s : St) (v : Vtx), (Add s v).err ≠ none →
        (Add s v).acc = [] ∧ (Add s v).rej = []) := by
  constructor
  · intro s w h
    rcases RecordPoll_result s w with h1 | ⟨e, s2, hx, h1⟩ | ⟨s2, hx, h1⟩
    · rw [h1] at h
      exact absurd rfl h
    · rw [h1]
      exact ⟨rfl, rfl⟩
    · rw [h1] at h
      exact absurd rfl h
  · intro s v h
    refine ⟨Add_acc_nil s v, ?_⟩
    rcases Add_rej_shape s v with h1 | ⟨h1, h2⟩
    · exact h1
    · rw [h2] at h
      exact absurd rfl h

/-- Claim C10 witness: the failing vertex-accept poll returns empty sets
with its error. -/
theorem claim_C10_witness :
    (RecordPoll (Add vacS0 evVtxBad).st [(0, 2)]).acc = []
    ∧ (RecordPoll (Add vacS0 evVtxBad).st [(0, 2)]).rej = [] :=
  claim_C10.1 (Add vacS0 evVtxBad).st [(0, 2)] (by decide)

theorem subset_pstep (s : St) (S : Finset Nat) : S ⊆ pstep s S := by
  intro x hx
  exact Finset.mem_union_left _ hx

theorem foldl_univ_mono (l : List Vtx) (b : Finset Nat) :
    b ⊆ l.foldl (fun a v => insert v.id a ∪ v.parents.toFinset) b := by
  induction l generalizing b with
  | nil => exact Finset.Subset.refl b
  | cons hd tl ih =>
      rw [List.foldl_cons]
      refine Finset.Subset.trans ?_ (ih _)
      intro x hx
      exact Finset.mem_union_left _ (Finset.mem_insert_of_mem hx)

theorem foldl_univ_parents (l : List Vtx) (b : Finset Nat) (v : Vtx) (hv : v ∈ l) :
    ∀ p ∈ v.parents, p ∈ l.foldl (fun a v => insert v.id a ∪ v.parents.toFinset) b := by
  induction l generalizing b with
  | nil => exact absurd hv (List.not_mem_nil v)
  | cons hd tl ih =>
      intro p hp
      rw [List.foldl_cons]
      rcases List.mem_cons.mp hv with hv | hv
      · apply foldl_univ_mono
        subst hv
        exact Finset.mem_union_right _ (List.mem_toFinset.mpr hp)
      · exact ih _ hv p hp

theorem parentsOf_subset_univ (s : St) (x p : Nat) (hp : p ∈ parentsOf s x) :
    p ∈ idUniverse s := by
  unfold parentsOf at hp
  cases hv : vtxOf s x with
  | none =>
      rw [hv] at hp
      simp at hp
  | some v =>
      rw [hv] at hp
      simp only [Option.map, Option.getD] at hp
      exact foldl_univ_parents s.vtxs ∅ v (List.mem_of_find?_eq_some hv) p hp

theorem pstep_subset_insert (s : St) (y : Nat) (S : Finset Nat)
    (hS : S ⊆ insert y (idUniverse s)) :
    pstep s S ⊆ insert y (idUniverse s) := by
  unfold pstep
  apply Finset.union_subset hS
  intro p hp
  rw [Finset.mem_biUnion] at hp
  obtain ⟨x, hx, hpx⟩ := hp
  by_cases hproc : isProcessingVtx s x = true
  · rw [if_pos hproc] at hpx
    exact Finset.mem_insert_of_mem (parentsOf_subset_univ s x p (List.mem_toFinset.mp hpx))
  · rw [if_neg hproc] at hpx
    exact absurd hpx (Finset.not_mem_empty p)

theorem iterate_subset_insert (s : St) (y : Nat) :
    ∀ n, (pstep s)^[n] {y} ⊆ insert y (idUniverse s)
  | 0 => by
      rw [Function.iterate_zero_apply]
      intro x hx
      rw [Finset.mem_singleton] at hx
      rw [hx]
      exact Finset.mem_insert_self y _
  | n + 1 => by
      rw [Function.iterate_succ_apply']
      exact pstep_subset_insert s y _ (iterate_subset_insert s y n)

theorem iterate_succ_mono (s : St) (y : Nat) (n : Nat) :
    (pstep s)^[n] {y} ⊆ (pstep s)^[n + 1] {y} := by
  rw [Function.iterate_succ_apply']
  exact subset_pstep s _

theorem mem_iterate_self (s : St) (y : Nat) : ∀ n, y ∈ (pstep s)^[n] {y}
  | 0 => by
      rw [Function.iterate_zero_apply]
      exact Finset.mem_singleton_self y
  | n + 1 => iterate_succ_mono s y n (mem_iterate_self s y n)

theorem closureOf_saturated (s : St) (y : Nat) :
    pstep s (closureOf s y) = closureOf s y := by
  have key : ∃ i, i ≤ (insert y (idUniverse s)).card
      ∧ (pstep s)^[i + 1] {y} = (pstep s)^[i] {y} := by
    by_contra hcon
    push_neg at hcon
    have grow : ∀ i, i ≤ (insert y (idUniverse s)).card →
        i + 1 ≤ ((pstep s)^[i] {y}).card := by
      intro i
      induction i with
      | zero =>
          intro _
          rw [Function.iterate_zero_apply]
          simp
      | succ k ih =>
          intro hk
          have hk2 : k ≤ (insert y (idUniverse s)).card := Nat.le_of_succ_le hk
          have hne := hcon k hk2
          have hss : (pstep s)^[k] {y} ⊂ (pstep s)^[k + 1] {y} :=
            Finset.ssubset_iff_subset_ne.mpr ⟨iterate_succ_mono s y k, fun he => hne he.symm⟩
          have hlt := Finset.card_lt_card hss
          have := ih hk2
          omega
    have h1 := grow (insert y (idUniverse s)).card le_rfl
    have h2 : (((pstep s)^[(insert y (idUniverse s)).card]) {y}).card
        ≤ (insert y (idUniverse s)).card :=
      Finset.card_le_card (iterate_subset_insert s y _)
    omega
  obtain ⟨i, hiN, hfix⟩ := key
  have stable : ∀ j, (pstep s)^[i + j] {y} = (pstep s)^[i] {y} := by
    intro j
    induction j with
    | zero => rfl
    | succ k ih =>
        have hik : i + (k + 1) = (i + k) + 1 := rfl
        rw [hik, Function.iterate_succ_apply', ih]
        have h2 := Function.iterate_succ_apply' (pstep s) i ({y} : Finset Nat)
        rw [← h2]
        exact hfix
  have hN : (insert y (idUniverse s)).card = i + ((insert y (idUniverse s)).card - i) :=
    (Nat.add_sub_cancel' hiN).symm
  show pstep s ((pstep s)^[(insert y (idUniverse s)).card] {y})
      = (pstep s)^[(insert y (idUniverse s)).card] {y}
  rw [hN, stable]
  have h2 := Function.iterate_succ_apply' (pstep s) i ({y} : Finset Nat)
  rw [← h2]
  exact hfix

theorem mem_closureOf_self (s : St) (y : Nat) : y ∈ closureOf s y :=
  mem_iterate_self s y _

theorem closureOf_parents_mem (s : St) (y x p : Nat)
    (hx : x ∈ closureOf s y) (hproc : isProcessingVtx s x = true)
    (hp : p ∈ parentsOf s x) :
    p ∈ closureOf s y := by
  rw [← closureOf_saturated s y]
  unfold pstep
  apply Finset.mem_union_right
  rw [Finset.mem_biUnion]
  refine ⟨x, hx, ?_⟩
  rw [if_pos hproc]
  exact List.mem_toFinset.mpr hp

theorem pancestor_closure (s : St) (u v : Nat) (h : PAncestor s u v) :
    ∀ y, v ∈ closureOf s y → u ∈ closureOf s y := by
  induction h with
  | refl x => exact fun y hy => hy
  | step hanc hproc hpar ih =>
      exact fun y hy => closureOf_parents_mem s y _ _ (ih y hy) hproc hpar

theorem votersF_mono (s : St) (w : Votes) (u v : Nat) (h : PAncestor s u v) :
    votersF s w v ⊆ votersF s w u := by
  intro r hr
  unfold votersF at hr ⊢
  rw [Finset.mem_filter] at hr ⊢
  refine ⟨hr.1, ?_⟩
  have hhit := hr.2
  unfold voteHit at hhit ⊢
  cases hvi : voteIds w r with
  | nil =>
      rw [hvi] at hhit
      have hfalse : (false : Bool) = true := hhit
      exact Bool.noConfusion hfalse
  | cons a l =>
      cases l with
      | nil =>
          rw [hvi] at hhit
          have hmem : v ∈ closureOf s a := by
            have hdec : decide (v ∈ closureOf s a) = true := hhit
            exact of_decide_eq_true hdec
          show decide (u ∈ closureOf s a) = true
          exact decide_eq_true (pancestor_closure s u v h a hmem)
      | cons b m =>
          rw [hvi] at hhit
          have hfalse : (false : Bool) = true := hhit
          exact Bool.noConfusion hfalse

/-- Claim C2: voters propagate from a vertex to all its processing
ancestors (so a successful chit on a vertex grants a successful poll to
every processing ancestor), the voters of a carrying vertex are a subset
of the voters of each of its transactions (so each reached vertex records
a successful poll on its transactions), and votes for two distinct
vertices carrying the same transaction with disjoint responder sets add
up in the tally of that transaction. -/
theorem claim_C2 (s : St) (w : Votes) :
    (∀ u v : Nat, PAncestor s u v →
        votersF s w v ⊆ votersF s w u
        ∧ (s.params.alpha ≤ (votersF s w v).card →
            s.params.alpha ≤ (votersF s w u).card))
    ∧ (∀ u t : Nat, u ∈ txCarriers s t →
        votersF s w u ⊆ txVotersF s w t
        ∧ (s.params.alpha ≤ (votersF s w u).card →
            s.params.alpha ≤ (txVotersF s w t).card))
    ∧ (∀ t a b : Nat, a ∈ txCarriers s t → b ∈ txCarriers s t → a ≠ b →
        votersF s w a ∩ votersF s w b = ∅ →
        (votersF s w a).card + (votersF s w b).card ≤ (txVotersF s w t).card) := by
  refine ⟨?_, ?_, ?_⟩
  · intro u v h
    have hsub := votersF_mono s w u v h
    exact ⟨hsub, fun ha => le_trans ha (Finset.card_le_card hsub)⟩
  · intro u t hu
    have hsub : votersF s w u ⊆ txVotersF s w t :=
      Finset.subset_biUnion_of_mem (votersF s w) hu
    exact ⟨hsub, fun ha => le_trans ha (Finset.card_le_card hsub)⟩
  · intro t a b ha hb hne hint
    have hsub : votersF s w a ∪ votersF s w b ⊆ txVotersF s w t :=
      Finset.union_subset (Finset.subset_biUnion_of_mem (votersF s w) ha)
        (Finset.subset_biUnion_of_mem (votersF s w) hb)
    have hdisj : Disjoint (votersF s w a) (votersF s w b) :=
      Finset.disjoint_iff_inter_eq_empty.mpr hint
    calc (votersF s w a).card + (votersF s w b).card
        = (votersF s w a ∪ votersF s w b).card :=
          (Finset.card_union_of_disjoint hdisj).symm
      _ ≤ (txVotersF s w t).card := Finset.card_le_card hsub

/-- Claim C2 witness: in the voting scenario the unanimous chit on V1
propagates to its genesis ancestor and to tx1, and in the split-voting
scenario the disjoint single votes for V0 and V1 add up on the shared
tx0. -/
theorem claim_C2_witness :
    2 ≤ (votersF votingS2 votingPoll 0).card
    ∧ 2 ≤ (txVotersF votingS2 votingPoll 11).card
    ∧ (votersF svS2 svPoll 2).card + (votersF svS2 svPoll 3).card
        ≤ (txVotersF svS2 svPoll 10).card := by
  refine ⟨?_, ?_, ?_⟩
  · have hanc : PAncestor votingS2 0 3 :=
      PAncestor.step (PAncestor.refl 3) (by decide) (by decide)
    exact ((claim_C2 votingS2 votingPoll).1 0 3 hanc).2 (by decide)
  · exact ((claim_C2 votingS2 votingPoll).2.1 3 11 (by decide)).2 (by decide)
  · exact (claim_C2 svS2 svPoll).2.2 10 2 3 (by decide) (by decide) (by decide) (by decide)

end Avalanche
